import Mathlib

/-!
Verification of the candidate-to-job matching and scoring pipeline of the
cvmatch applicant-tracking application.

The development shallowly embeds the TypeScript source:
* `src/server/services/embeddings.ts` — cosine similarity, similarity-to-score
  mapping, candidate canonical embedding text;
* `src/server/services/openai.ts` — the response shaping (defaulting and
  clamping) applied to the external qualitative assessment;
* `src/server/routes.ts` — the bulk-upload loop, the score blend, the
  job-description activation flow, and the status-update route;
* `src/server/storage.ts` — candidate creation, the filtered/paginated
  candidate listing (left join, WHERE, ORDER BY, LIMIT/OFFSET, count), and
  job-description deactivation.

JavaScript numbers are idealised as real numbers (`ℝ`) in the similarity
scorer (where `Math.sqrt` occurs) and as exact rationals (`ℚ`) in the
persisted score columns of the query layer, where everything is decidable.
-/

namespace CvMatch

/-! ### Similarity Scorer (`src/server/services/embeddings.ts`)

`cosineSimilarity` walks both vectors once, accumulating the dot product and
the two squared norms, then takes square roots.  A thrown dimension-mismatch
error is modelled as `Except.error` carrying the message from the source. -/

/-- Sum of squares accumulated by the loop (`normA`/`normB` before `sqrt`). -/
def sumSq (l : List ℝ) : ℝ := (l.map fun x => x * x).sum

/-- Dot product accumulated by the loop. -/
def dotProduct (a b : List ℝ) : ℝ := (List.zipWith (· * ·) a b).sum

/-- `Math.sqrt` of the accumulated sum of squares (`normA` after line 18). -/
noncomputable def magnitude (l : List ℝ) : ℝ := Real.sqrt (sumSq l)

open Classical in
/-- `cosineSimilarity(a, b)` from `embeddings.ts` lines 3–26. -/
noncomputable def cosineSimilarity (a b : List ℝ) : Except String ℝ :=
  if a.length ≠ b.length then
    .error "Vectors must have the same length"
  else if magnitude a = 0 ∨ magnitude b = 0 then
    .ok 0
  else
    .ok (dotProduct a b / (magnitude a * magnitude b))

/-- `similarityToScore(similarity)` from `embeddings.ts` lines 28–31:
`Math.round(((similarity + 1) / 2) * 100)`.  `Math.round` agrees with
the Mathlib `round` (`⌊x + 1/2⌋`, ties towards `+∞`). -/
noncomputable def similarityToScore (similarity : ℝ) : ℤ :=
  round (((similarity + 1) / 2) * 100)

/-- `calculateMatchScore` from `embeddings.ts` lines 33–46: the embeddings are
already parsed vectors here (`JSON.parse ∘ JSON.stringify` is the identity on
the serialised vectors); a thrown error is re-wrapped. -/
noncomputable def calculateMatchScore (candidateEmbedding jobDescriptionEmbedding : List ℝ) :
    Except String ℤ :=
  match cosineSimilarity candidateEmbedding jobDescriptionEmbedding with
  | .ok similarity => .ok (similarityToScore similarity)
  | .error e => .error ("Failed to calculate match score: " ++ e)

/-! ### Record Shaper (`src/server/services/embeddings.ts` lines 48–65)

`generateCandidateEmbedding` builds one canonical text from the structured
candidate fields and hands it to the external embedding call; only the text
construction is local logic. -/

/-- JavaScript `Array.prototype.join(sep)`. -/
def jsJoin (sep : String) : List String → String
  | [] => ""
  | x :: xs => xs.foldl (fun acc s => acc ++ sep ++ s) x

/-- The fields of an experience entry read by the canonicalisation
(`exp.title`, `exp.company`, `exp.description`). -/
structure ExperienceEntry where
  title : String
  company : String
  description : String

/-- The fields of an education entry read by the canonicalisation
(`edu.degree`, `edu.institution`). -/
structure EducationEntry where
  degree : String
  institution : String

/-- The structured candidate fields consumed by `generateCandidateEmbedding`. -/
structure CandidateInfo where
  name : String
  summary : String
  skills : List String
  experience : List ExperienceEntry
  education : List EducationEntry

/-- `textForEmbedding` from `generateCandidateEmbedding` (lines 55–61): the
five components are themselves joined with a single space. -/
def candidateTextForEmbedding (c : CandidateInfo) : String :=
  jsJoin " "
    [ c.name,
      c.summary,
      jsJoin " " c.skills,
      jsJoin " " (c.experience.map fun exp =>
        exp.title ++ " at " ++ exp.company ++ ": " ++ exp.description),
      jsJoin " " (c.education.map fun edu =>
        edu.degree ++ " from " ++ edu.institution) ]

/-! ### Qualitative assessment shaping (`src/server/services/openai.ts` lines 119–130)

The JSON from the external model is duck-typed; each field may be missing.  The
return statement defaults missing fields (JavaScript `||`) and clamps every
score with `Math.max(0, Math.min(100, …))`. -/

/-- The raw, unvalidated JSON object parsed from the model response. -/
structure RawAssessment where
  matchScore : Option ℝ := none
  skillsMatch : Option ℝ := none
  experienceMatch : Option ℝ := none
  educationMatch : Option ℝ := none
  industryMatch : Option ℝ := none
  strengths : Option (List String) := none
  weaknesses : Option (List String) := none
  recommendation : Option String := none
  detailedAnalysis : Option String := none
  isMatch : Option Bool := none

/-- `Math.max(0, Math.min(100, x))`. -/
def clamp100 (x : ℝ) : ℝ := max 0 (min 100 x)

/-- JavaScript `x || 0` on an optional numeric field (a missing value and `0`
both yield `0`). -/
def jsNumOr0 (x : Option ℝ) : ℝ := x.getD 0

/-- JavaScript `x || d` on an optional string field (missing values and the
falsy empty string both yield the default). -/
def jsStrOr (x : Option String) (d : String) : String :=
  match x with
  | some s => if s = "" then d else s
  | none => d

/-- The shaped result returned by `analyzeCandidateMatch`. -/
structure Assessment where
  matchScore : ℝ
  skillsMatch : ℝ
  experienceMatch : ℝ
  educationMatch : ℝ
  industryMatch : ℝ
  strengths : List String
  weaknesses : List String
  recommendation : String
  detailedAnalysis : String
  isMatch : Bool

/-- The return statement of `analyzeCandidateMatch` (`openai.ts` 119–130). -/
def shapeAssessment (result : RawAssessment) : Assessment where
  matchScore := clamp100 (jsNumOr0 result.matchScore)
  skillsMatch := clamp100 (jsNumOr0 result.skillsMatch)
  experienceMatch := clamp100 (jsNumOr0 result.experienceMatch)
  educationMatch := clamp100 (jsNumOr0 result.educationMatch)
  industryMatch := clamp100 (jsNumOr0 result.industryMatch)
  strengths := result.strengths.getD []
  weaknesses := result.weaknesses.getD []
  recommendation := jsStrOr result.recommendation "No recommendation available"
  detailedAnalysis := jsStrOr result.detailedAnalysis "No analysis available"
  isMatch := result.isMatch.getD false

/-! ### Match Pipeline score blend (`src/server/routes.ts` lines 171–200)

For one candidate file the route obtains the shaped qualitative assessment,
computes the embedding score, and persists
`Math.max(analysis.matchScore, embeddingScore)` as `matchScore` of the new
`MatchAnalysis` row.  A failure of `calculateMatchScore` propagates as the
per-file error. -/

/-- The `matchScore` field persisted in `analysisData` (routes.ts line 181 and
187), or the per-file error if the embedding score computation throws. -/
noncomputable def persistedMatchScore (result : RawAssessment)
    (candidateEmbedding jobDescriptionEmbedding : List ℝ) : Except String ℝ :=
  match calculateMatchScore candidateEmbedding jobDescriptionEmbedding with
  | .ok embeddingScore =>
      .ok (max (shapeAssessment result).matchScore (embeddingScore : ℝ))
  | .error e => .error e

/-! ### Bulk candidate upload loop (`src/server/routes.ts` lines 141–216)

The route iterates over the uploaded files sequentially.  Oversized files are
recorded in `errors` and their temp file unlinked.  Otherwise the per-file
pipeline (parse → extract → embed → persist candidate → analyze → persist
analysis) runs inside a per-file `try`; on success the `{candidate, analysis}`
pair is pushed to `results`, on a thrown error `{fileName, error}` is pushed
to `errors`; in every branch the temp file is unlinked.  The per-file pipeline
is abstracted as a function into `Except` (the external services decide
success or failure). -/

/-- The multer file handle fields used by the loop. -/
structure UploadFile where
  originalname : String
  path : String
  size : ℕ

/-- `validateFileSize` from `fileParser.ts` (default `maxSizeMB = 10`). -/
def validateFileSize (fileSize : ℕ) : Bool := fileSize ≤ 10 * 1024 * 1024

/-- The JSON body `{ results, errors }` plus the set of unlinked temp paths. -/
structure BatchOutcome (α : Type) where
  results : List α
  errors : List (String × String)
  removedPaths : List String
  deriving DecidableEq

/-- The `for … of req.files` loop, lines 141–216. -/
def processCandidateFiles {α : Type} (pipeline : UploadFile → Except String α) :
    List UploadFile → BatchOutcome α
  | [] => ⟨[], [], []⟩
  | f :: rest =>
    let tail := processCandidateFiles pipeline rest
    if validateFileSize f.size then
      match pipeline f with
      | .ok r => ⟨r :: tail.results, tail.errors, f.path :: tail.removedPaths⟩
      | .error msg =>
          ⟨tail.results, (f.originalname, msg) :: tail.errors, f.path :: tail.removedPaths⟩
    else
      ⟨tail.results, (f.originalname, "File size exceeds 10MB limit") :: tail.errors,
        f.path :: tail.removedPaths⟩

/-! ### Job-description activation (`routes.ts` lines 88–101, `storage.ts` 139–144) -/

/-- The job-description columns relevant to the activation invariant. -/
structure JobRow where
  id : ℕ
  isActive : Bool
  createdAt : ℕ
  deriving DecidableEq

/-- `deactivateAllJobDescriptions`: `UPDATE … SET is_active = false WHERE
is_active = true`. -/
def deactivateAllJobDescriptions (jobs : List JobRow) : List JobRow :=
  jobs.map fun j => if j.isActive then { j with isActive := false } else j

/-- The persistence steps of the upload route: deactivate all currently active
rows, then insert the new job description with `isActive: true`. -/
def uploadJobDescription (jobs : List JobRow) (newJob : JobRow) : List JobRow :=
  deactivateAllJobDescriptions jobs ++ [{ newJob with isActive := true }]

/-! ### Candidate status (`routes.ts` 281–295, `storage.ts` 146–158)

The status column is `text` with default `pending`; `none` models an absent
(unsupplied) value, in which case the database default applies at insert. -/

/-- The four enumerated status values. -/
def candidateStatuses : List String := ["pending", "shortlisted", "rejected", "hired"]

/-- The route guard `!status || !statuses.includes(status)` (line 286):
`true` exactly when the update is accepted. -/
def statusUpdateAccepted (status : Option String) : Bool :=
  match status with
  | none => false
  | some s => !(s == "") && candidateStatuses.contains s

/-- The status handling of `createCandidate` (`storage.ts` 146–158) followed by the
column default: `if (candidateData.status && !includes(candidateData.status))
candidateData.status = "pending"`; an absent status receives the database
default `pending` at insert. -/
def createCandidateStoredStatus (status : Option String) : String :=
  match status with
  | some s => if s ≠ "" ∧ s ∉ candidateStatuses then "pending" else s
  | none => "pending"

/-! ### Query/Filter Layer (`src/server/storage.ts` lines 160–285)

`getCandidatesWithAnalysis` builds one SQL query: `candidates LEFT JOIN
candidate_analysis ON candidates.id = candidate_analysis.candidate_id`,
`WHERE` the conjunction of the active filters, `ORDER BY
candidate_analysis.match_score DESC, candidates.created_at DESC`, with
`LIMIT`/`OFFSET`, plus a count query over the same join and filters.

SQL semantics modelled: a `WHERE` condition involving a `NULL` (`NULL >= x`,
`name ILIKE …` on a `NULL` column, `array_to_string` of a `NULL` array) is not
`TRUE`, so the row is excluded unless another `OR` branch is `TRUE`; Postgres
`ORDER BY x DESC` places `NULL`s first.  The order among rows tied on both
sort keys is unspecified by SQL; the model fixes it with a stable insertion
sort. -/

/-- The candidate columns read by the filters, the sort, and the join. -/
structure CandidateRow where
  id : ℕ
  jobDescriptionId : Option ℕ
  name : String
  email : Option String
  skills : Option (List String)
  status : Option String
  createdAt : ℕ
  deriving DecidableEq

/-- The analysis columns read by the filters, the sort, the join, and the
result transform. -/
structure AnalysisRow where
  id : ℕ
  candidateId : ℕ
  jobDescriptionId : ℕ
  matchScore : ℚ
  isMatch : Bool
  createdAt : ℕ
  deriving DecidableEq

/-- The two tables the listing query touches. -/
structure Database where
  candidates : List CandidateRow
  analyses : List AnalysisRow

/-- The filter arguments of `getCandidatesWithAnalysis`. -/
structure CandidateFilters where
  jobDescriptionId : Option ℕ := none
  search : Option String := none
  minScore : Option ℚ := none
  maxScore : Option ℚ := none
  status : Option String := none
  page : ℕ
  limit : ℕ

/-- `ILIKE` with the term wrapped in percent wildcards: case-insensitive
substring containment (metacharacters
inside the term are not modelled). -/
def ilikeContains (term s : String) : Bool :=
  decide (term.toLower.data <:+: s.toLower.data)

/-- One left-join row: the candidate and its joined analysis row, `none` when
no analysis matched. -/
abbrev JoinRow := CandidateRow × Option AnalysisRow

/-- `candidates LEFT JOIN candidate_analysis ON id = candidate_id`. -/
def leftJoinRows (db : Database) : List JoinRow :=
  db.candidates.flatMap fun c =>
    match db.analyses.filter (fun a => a.candidateId = c.id) with
    | [] => [(c, none)]
    | ms => ms.map fun a => (c, some a)

/-- The `WHERE` clause built at lines 177–203: each filter contributes a
condition only when present (and truthy, for `jobDescriptionId`, `search` and
`status`); the row passes when the conjunction is SQL-`TRUE`. -/
def rowPassesFilters (fi : CandidateFilters) (r : JoinRow) : Bool :=
  (match fi.jobDescriptionId with
   | some j => if j ≠ 0 then r.1.jobDescriptionId = some j else true
   | none => true) &&
  (match fi.search with
   | some term =>
     if term ≠ "" then
       ilikeContains term r.1.name ||
       (match r.1.email with
        | some e => ilikeContains term e
        | none => false) ||
       (match r.1.skills with
        | some sk => ilikeContains term (jsJoin " " sk)
        | none => false)
     else true
   | none => true) &&
  (match fi.status with
   | some st => if st ≠ "" then r.1.status = some st else true
   | none => true) &&
  (match fi.minScore with
   | some m =>
     match r.2 with
     | some a => decide (m ≤ a.matchScore)
     | none => false
   | none => true) &&
  (match fi.maxScore with
   | some m =>
     match r.2 with
     | some a => decide (a.matchScore ≤ m)
     | none => false
   | none => true)

/-- The sort key `candidate_analysis.match_score` of a join row (`NULL` when
the candidate has no analysis). -/
def scoreKey (r : JoinRow) : Option ℚ := r.2.map (·.matchScore)

/-- `r` sorts weakly before `s` under `ORDER BY match_score DESC,
created_at DESC`: `NULL` scores first (the Postgres default for `DESC`),
higher scores first, ties by later creation first. -/
def rowLE (r s : JoinRow) : Bool :=
  match scoreKey r, scoreKey s with
  | none, none => decide (s.1.createdAt ≤ r.1.createdAt)
  | none, some _ => true
  | some _, none => false
  | some a, some b => decide (b < a) || (decide (b = a) && decide (s.1.createdAt ≤ r.1.createdAt))

/-- The propositional form of `rowLE`, used for sortedness statements. -/
def RowLE (r s : JoinRow) : Prop := rowLE r s = true

instance : DecidableRel RowLE := fun _ _ => inferInstanceAs (Decidable (_ = true))

/-- The filtered join rows, before ordering and pagination (also the row set
the count query measures). -/
def filteredRows (db : Database) (fi : CandidateFilters) : List JoinRow :=
  (leftJoinRows db).filter (rowPassesFilters fi)

/-- The filtered rows in `ORDER BY` order. -/
def sortedRows (db : Database) (fi : CandidateFilters) : List JoinRow :=
  (filteredRows db fi).insertionSort RowLE

/-- `LIMIT limit OFFSET (page - 1) * limit` applied to the ordered rows. -/
def pageRows (db : Database) (fi : CandidateFilters) : List JoinRow :=
  (((sortedRows db fi).drop ((fi.page - 1) * fi.limit)).take fi.limit)

/-- The result-shaping at lines 260–278: the row is returned with `analysis :=
row.analysis?.id ? row.analysis : undefined` (a joined row whose `id` is
`NULL` — or `0`, JavaScript truthiness — becomes an absent analysis). -/
def transformRow (r : JoinRow) : JoinRow :=
  (r.1, match r.2 with
        | some a => if a.id ≠ 0 then some a else none
        | none => none)

/-- The `{ candidates, total, hasMore }` response. -/
structure QueryResult where
  candidates : List JoinRow
  total : ℕ
  hasMore : Bool

/-- `getCandidatesWithAnalysis` (`storage.ts` 160–285). -/
def getCandidatesWithAnalysis (db : Database) (fi : CandidateFilters) : QueryResult where
  candidates := (pageRows db fi).map transformRow
  total := (filteredRows db fi).length
  hasMore := decide ((fi.page - 1) * fi.limit + fi.limit < (filteredRows db fi).length)

/-! ### Candidate status update route (`routes.ts` 281–295) -/

/-- `updateCandidateStatus` (`storage.ts` 360–365). -/
def updateCandidateStatus (db : Database) (candidateId : ℕ) (status : String) : Database :=
  { db with
    candidates := db.candidates.map fun c =>
      if c.id = candidateId then { c with status := some status } else c }

/-- The PATCH status route: status code 400 with the database untouched when
the guard rejects, otherwise the update runs. -/
def updateCandidateStatusRoute (db : Database) (candidateId : ℕ) (status : Option String) :
    ℕ × Database :=
  if statusUpdateAccepted status then
    (200, updateCandidateStatus db candidateId (status.getD ""))
  else
    (400, db)

/-! ### Helper lemmas for the scorer -/

lemma sumSq_nonneg (l : List ℝ) : 0 ≤ sumSq l := by
  induction l with
  | nil => simp [sumSq]
  | cons x xs ih =>
    simp only [sumSq, List.map_cons, List.sum_cons] at ih ⊢
    exact add_nonneg (mul_self_nonneg x) ih

/-- Cauchy–Schwarz for the accumulated sums. -/
lemma dotProduct_sq_le : ∀ a b : List ℝ, (dotProduct a b) ^ 2 ≤ sumSq a * sumSq b := by
  intro a
  induction a with
  | nil => intro b; simp [dotProduct, sumSq]
  | cons x xs ih =>
    intro b
    cases b with
    | nil => simp [dotProduct, sumSq]
    | cons y ys =>
      have h := ih ys
      have hp : 0 ≤ sumSq xs := sumSq_nonneg xs
      have hq : 0 ≤ sumSq ys := sumSq_nonneg ys
      have e1 : dotProduct (x :: xs) (y :: ys) = x * y + dotProduct xs ys := by
        simp [dotProduct]
      have e2 : sumSq (x :: xs) = x * x + sumSq xs := by simp [sumSq]
      have e3 : sumSq (y :: ys) = y * y + sumSq ys := by simp [sumSq]
      rw [e1, e2, e3]
      rcases eq_or_lt_of_le hq with hq0 | hq0
      · have hd2 : dotProduct xs ys ^ 2 ≤ 0 := by
          have := h
          rw [← hq0, mul_zero] at this
          exact this
        have hdz : dotProduct xs ys = 0 :=
          pow_eq_zero_iff (two_ne_zero) |>.mp (le_antisymm hd2 (sq_nonneg _))
        rw [hdz, ← hq0]
        nlinarith [mul_nonneg hp (mul_self_nonneg y)]
      · nlinarith [sq_nonneg (x * sumSq ys - y * dotProduct xs ys),
          mul_nonneg (sq_nonneg y) (sub_nonneg.mpr h),
          mul_nonneg hq0.le (sub_nonneg.mpr h)]

lemma magnitude_nonneg (l : List ℝ) : 0 ≤ magnitude l := Real.sqrt_nonneg _

/-- A successful cosine similarity lies in `[-1, 1]`. -/
lemma abs_cosineSimilarity_le_one {a b : List ℝ} {c : ℝ}
    (h : cosineSimilarity a b = .ok c) : |c| ≤ 1 := by
  classical
  rw [cosineSimilarity] at h
  split_ifs at h with hlen hzero
  · cases h
    norm_num
  · cases h
    push_neg at hzero
    have hma : 0 < magnitude a := lt_of_le_of_ne (magnitude_nonneg a) (Ne.symm hzero.1)
    have hmb : 0 < magnitude b := lt_of_le_of_ne (magnitude_nonneg b) (Ne.symm hzero.2)
    have hdot : |dotProduct a b| ≤ magnitude a * magnitude b := by
      calc |dotProduct a b| = Real.sqrt ((dotProduct a b) ^ 2) :=
            (Real.sqrt_sq_eq_abs _).symm
      _ ≤ Real.sqrt (sumSq a * sumSq b) := Real.sqrt_le_sqrt (dotProduct_sq_le a b)
      _ = magnitude a * magnitude b := Real.sqrt_mul (sumSq_nonneg a) _
    rw [abs_div, abs_of_pos (mul_pos hma hmb)]
    exact (div_le_one (mul_pos hma hmb)).mpr hdot

/-- For a similarity in `[-1, 1]` the rescaled score lies in `[0, 100]`. -/
lemma similarityToScore_bounds {s : ℝ} (h₁ : -1 ≤ s) (h₂ : s ≤ 1) :
    0 ≤ similarityToScore s ∧ similarityToScore s ≤ 100 := by
  rw [similarityToScore, round_eq]
  constructor
  · exact Int.le_floor.mpr (by push_cast; linarith)
  · have : ((s + 1) / 2) * 100 + 1 / 2 < ((101 : ℤ) : ℝ) := by push_cast; linarith
    have := Int.floor_lt.mpr this
    omega

lemma clamp100_bounds (x : ℝ) : 0 ≤ clamp100 x ∧ clamp100 x ≤ 100 :=
  ⟨le_max_left _ _, max_le (by norm_num) (min_le_left _ _)⟩

/-- Claim C2: `cosineSimilarity(a, b)` fails with a dimension-mismatch error
exactly when the vector lengths differ; for equal lengths it returns `0` when
either magnitude is zero and `(a·b) / (|a| * |b|)` otherwise. -/
theorem cosineSimilarity_spec (a b : List ℝ) :
    ((∃ e, cosineSimilarity a b = .error e) ↔ a.length ≠ b.length) ∧
    (a.length = b.length → (magnitude a = 0 ∨ magnitude b = 0) →
      cosineSimilarity a b = .ok 0) ∧
    (a.length = b.length → magnitude a ≠ 0 → magnitude b ≠ 0 →
      cosineSimilarity a b = .ok (dotProduct a b / (magnitude a * magnitude b))) := by
  classical
  refine ⟨⟨?_, ?_⟩, ?_, ?_⟩
  · intro ⟨e, he⟩
    intro hlen
    rw [cosineSimilarity, if_neg (by simpa using hlen)] at he
    split_ifs at he
  · intro hlen
    exact ⟨"Vectors must have the same length", by rw [cosineSimilarity, if_pos hlen]⟩
  · intro hlen hzero
    rw [cosineSimilarity, if_neg (by simpa using hlen), if_pos hzero]
  · intro hlen ha hb
    rw [cosineSimilarity, if_neg (by simpa using hlen), if_neg (by push_neg; exact ⟨ha, hb⟩)]

/-- Witness for claim C2 at concrete vectors. -/
theorem cosineSimilarity_spec_witness :
    (([1] : List ℝ).length = ([1] : List ℝ).length ∧
      magnitude ([1] : List ℝ) ≠ 0 ∧
      cosineSimilarity ([1] : List ℝ) ([1] : List ℝ) =
        .ok (dotProduct [1] [1] / (magnitude [1] * magnitude [1]))) ∧
    (([0] : List ℝ).length = ([0] : List ℝ).length ∧
      magnitude ([0] : List ℝ) = 0 ∧
      cosineSimilarity ([0] : List ℝ) ([0] : List ℝ) = .ok 0) := by
  have h1 : magnitude ([1] : List ℝ) ≠ 0 := by
    simp [magnitude, sumSq]
  have h0 : magnitude ([0] : List ℝ) = 0 := by
    simp [magnitude, sumSq]
  exact ⟨⟨rfl, h1, (cosineSimilarity_spec [1] [1]).2.2 rfl h1 h1⟩,
    ⟨rfl, h0, (cosineSimilarity_spec [0] [0]).2.1 rfl (Or.inl h0)⟩⟩

/-- Claim C9: `similarityToScore(s)` equals `round(((s + 1) / 2) * 100)`, and
in particular maps `-1` to `0`, `0` to `50` and `1` to `100`. -/
theorem similarityToScore_spec :
    (∀ s : ℝ, similarityToScore s = round (((s + 1) / 2) * 100)) ∧
    similarityToScore (-1) = 0 ∧ similarityToScore 0 = 50 ∧ similarityToScore 1 = 100 := by
  refine ⟨fun s => rfl, ?_, ?_, ?_⟩
  · rw [similarityToScore, show (((-1 : ℝ) + 1) / 2) * 100 = ((0 : ℤ) : ℝ) by norm_num,
      round_intCast]
  · rw [similarityToScore, show (((0 : ℝ) + 1) / 2) * 100 = ((50 : ℤ) : ℝ) by norm_num,
      round_intCast]
  · rw [similarityToScore, show (((1 : ℝ) + 1) / 2) * 100 = ((100 : ℤ) : ℝ) by norm_num,
      round_intCast]

/-- Claim C1: for a candidate file that completes the pipeline (the embedding
score computation succeeds, which for parsed vectors means the dimensions
agree), the persisted match score equals `max(Q, G)` for the shaped
qualitative score `Q` and the geometric score `G`, and lies in `[0, 100]`
whatever raw overall score (out of range or missing) the external assessment
returned. -/
theorem persistedMatchScore_spec (result : RawAssessment) (a b : List ℝ)
    (h : a.length = b.length) :
    ∃ g : ℤ, calculateMatchScore a b = .ok g ∧
      persistedMatchScore result a b =
        .ok (max (shapeAssessment result).matchScore (g : ℝ)) ∧
      0 ≤ max (shapeAssessment result).matchScore (g : ℝ) ∧
      max (shapeAssessment result).matchScore (g : ℝ) ≤ 100 := by
  classical
  obtain ⟨c, hc⟩ : ∃ c, cosineSimilarity a b = .ok c := by
    rw [cosineSimilarity, if_neg (by simpa using h)]
    split_ifs
    · exact ⟨0, rfl⟩
    · exact ⟨_, rfl⟩
  have habs := abs_cosineSimilarity_le_one hc
  obtain ⟨hc1, hc2⟩ := abs_le.mp habs
  obtain ⟨hg0, hg100⟩ := similarityToScore_bounds hc1 hc2
  refine ⟨similarityToScore c, ?_, ?_, ?_, ?_⟩
  · rw [calculateMatchScore, hc]
  · rw [persistedMatchScore, calculateMatchScore, hc]
  · exact le_trans (clamp100_bounds _).1 (le_max_left _ _)
  · refine max_le (clamp100_bounds _).2 ?_
    exact_mod_cast hg100

/-- Witness for claim C1: equal-dimension embeddings together with a raw
assessment whose overall score is out of range. -/
theorem persistedMatchScore_spec_witness :
    (([1, 0] : List ℝ).length = ([0, 1] : List ℝ).length) ∧
    (∃ g : ℤ, calculateMatchScore [1, 0] [0, 1] = .ok g ∧
      persistedMatchScore { matchScore := some 250 } [1, 0] [0, 1] =
        .ok (max (shapeAssessment { matchScore := some 250 }).matchScore (g : ℝ)) ∧
      0 ≤ max (shapeAssessment { matchScore := some 250 }).matchScore (g : ℝ) ∧
      max (shapeAssessment { matchScore := some 250 }).matchScore (g : ℝ) ≤ 100) :=
  ⟨rfl, persistedMatchScore_spec { matchScore := some 250 } [1, 0] [0, 1] rfl⟩

/-- Claim C8: the canonical embedding text is the space-joined concatenation,
in fixed order, of name, summary, the space-joined skills, the rendered
experience entries, and the rendered education entries; identical inputs
yield identical text. -/
theorem candidateTextForEmbedding_spec :
    (∀ c : CandidateInfo,
      candidateTextForEmbedding c =
        c.name ++ " " ++ c.summary ++ " " ++ jsJoin " " c.skills ++ " " ++
        jsJoin " " (c.experience.map fun exp =>
          exp.title ++ " at " ++ exp.company ++ ": " ++ exp.description) ++ " " ++
        jsJoin " " (c.education.map fun edu =>
          edu.degree ++ " from " ++ edu.institution)) ∧
    (∀ c₁ c₂ : CandidateInfo, c₁ = c₂ →
      candidateTextForEmbedding c₁ = candidateTextForEmbedding c₂) := by
  constructor
  · intro c
    simp [candidateTextForEmbedding, jsJoin, String.append_assoc]
  · intro c₁ c₂ h
    rw [h]

/-- Claim C7: after a job-description upload, the rows with `isActive = true`
are exactly the newly created row, regardless of how many were active
before. -/
theorem uploadJobDescription_unique_active (jobs : List JobRow) (newJob : JobRow) :
    (uploadJobDescription jobs newJob).filter (·.isActive) =
      [{ newJob with isActive := true }] ∧
    ((uploadJobDescription jobs newJob).filter (·.isActive)).length = 1 := by
  have hde : (deactivateAllJobDescriptions jobs).filter (·.isActive) = [] := by
    induction jobs with
    | nil => rfl
    | cons j js ih =>
      simp only [deactivateAllJobDescriptions, List.map_cons] at ih ⊢
      by_cases hj : j.isActive
      · simp [hj, List.filter_cons, ih]
      · simp [hj, List.filter_cons, ih]
  constructor
  · rw [uploadJobDescription, List.filter_append, hde]
    simp [List.filter_cons]
  · rw [uploadJobDescription, List.filter_append, hde]
    simp [List.filter_cons]

/-- Claim C3: in the bulk-upload loop every file ends up in exactly one of
`results` and `errors` and has its temporary file removed; in particular, for
three well-sized files where exactly the second one fails with an
external-service error, the response holds two results and the one error
entry carrying the failing file name and message, and all three temp files
are removed. -/
theorem processCandidateFiles_spec :
    (∀ (α : Type) (pipeline : UploadFile → Except String α) (files : List UploadFile),
      (processCandidateFiles pipeline files).results.length +
        (processCandidateFiles pipeline files).errors.length = files.length ∧
      (processCandidateFiles pipeline files).removedPaths = files.map (·.path)) ∧
    (∀ (α : Type) (pipeline : UploadFile → Except String α) (f₁ f₂ f₃ : UploadFile)
      (r₁ r₃ : α) (msg : String),
      validateFileSize f₁.size = true → validateFileSize f₂.size = true →
      validateFileSize f₃.size = true →
      pipeline f₁ = .ok r₁ → pipeline f₂ = .error msg → pipeline f₃ = .ok r₃ →
      processCandidateFiles pipeline [f₁, f₂, f₃] =
        ⟨[r₁, r₃], [(f₂.originalname, msg)], [f₁.path, f₂.path, f₃.path]⟩) := by
  constructor
  · intro α pipeline files
    induction files with
    | nil => exact ⟨rfl, rfl⟩
    | cons f rest ih =>
      obtain ⟨ih1, ih2⟩ := ih
      by_cases hv : validateFileSize f.size
      · cases hpf : pipeline f with
        | ok r =>
          refine ⟨?_, ?_⟩
          · simp only [processCandidateFiles, hv, hpf, if_true, List.length_cons]
            omega
          · simp [processCandidateFiles, hv, hpf, ih2]
        | error msg =>
          refine ⟨?_, ?_⟩
          · simp only [processCandidateFiles, hv, hpf, if_true, List.length_cons]
            omega
          · simp [processCandidateFiles, hv, hpf, ih2]
      · refine ⟨?_, ?_⟩
        · simp only [processCandidateFiles, hv, Bool.false_eq_true, if_false, List.length_cons]
          omega
        · simp [processCandidateFiles, hv, ih2]
  · intro α pipeline f₁ f₂ f₃ r₁ r₃ msg hv₁ hv₂ hv₃ hp₁ hp₂ hp₃
    simp [processCandidateFiles, hv₁, hv₂, hv₃, hp₁, hp₂, hp₃]

/-- Witness for claim C3: a concrete three-file batch whose pipeline fails
exactly on the second file. -/
theorem processCandidateFiles_spec_witness :
    (validateFileSize (⟨"a.pdf", "tmp1", 100⟩ : UploadFile).size = true ∧
     validateFileSize (⟨"b.pdf", "tmp2", 100⟩ : UploadFile).size = true ∧
     validateFileSize (⟨"c.pdf", "tmp3", 100⟩ : UploadFile).size = true ∧
     (fun f : UploadFile => if f.originalname = "b.pdf" then
        (.error "service failure" : Except String ℕ) else .ok 7) ⟨"a.pdf", "tmp1", 100⟩ =
          .ok 7) ∧
    processCandidateFiles
      (fun f : UploadFile => if f.originalname = "b.pdf" then
        (.error "service failure" : Except String ℕ) else .ok 7)
      [⟨"a.pdf", "tmp1", 100⟩, ⟨"b.pdf", "tmp2", 100⟩, ⟨"c.pdf", "tmp3", 100⟩] =
      ⟨[7, 7], [("b.pdf", "service failure")], ["tmp1", "tmp2", "tmp3"]⟩ :=
  ⟨⟨by decide, by decide, by decide, by rfl⟩,
    processCandidateFiles_spec.2 ℕ _ _ _ _ 7 7 "service failure"
      (by decide) (by decide) (by decide) (by rfl) (by rfl) (by rfl)⟩

/-- Counterexample to claim C6: the empty string is an unrecognized supplied
status value, yet `createCandidate` persists it unchanged (the guard
`candidateData.status && …` skips falsy values), so the stored status is
outside the four enumerated values. -/
theorem createCandidateStoredStatus_empty_counterexample :
    createCandidateStoredStatus (some "") = "" ∧ "" ∉ candidateStatuses := by
  constructor
  · rfl
  · decide

/-- Claim C6 (amended): the status-update route rejects any value outside the
four enumerated statuses with a validation error and leaves the database
unchanged; candidate creation coerces any unrecognized non-empty supplied
status to `pending` and applies the `pending` default to an absent status,
but persists an empty-string status unchanged, so a stored status is one of
the four values or the empty string. -/
theorem candidateStatus_spec :
    (∀ (db : Database) (cid : ℕ) (st : Option String),
      (∀ s, st = some s → s ∉ candidateStatuses) →
      updateCandidateStatusRoute db cid st = (400, db)) ∧
    (∀ s : String, s ≠ "" → s ∉ candidateStatuses →
      createCandidateStoredStatus (some s) = "pending") ∧
    createCandidateStoredStatus none = "pending" ∧
    (∀ st : Option String,
      createCandidateStoredStatus st ∈ candidateStatuses ∨
        (st = some "" ∧ createCandidateStoredStatus st = "")) := by
  refine ⟨?_, ?_, rfl, ?_⟩
  · intro db cid st hst
    rw [updateCandidateStatusRoute, if_neg]
    intro hacc
    cases st with
    | none => simp [statusUpdateAccepted] at hacc
    | some s =>
      simp only [statusUpdateAccepted, Bool.and_eq_true] at hacc
      exact hst s rfl (by simpa using hacc.2)
  · intro s hne hnmem
    rw [createCandidateStoredStatus, if_pos ⟨hne, hnmem⟩]
  · intro st
    cases st with
    | none => left; decide
    | some s =>
      by_cases hne : s = ""
      · right
        subst hne
        exact ⟨rfl, rfl⟩
      · by_cases hmem : s ∈ candidateStatuses
        · left
          rw [createCandidateStoredStatus, if_neg (by simp [hmem])]
          exact hmem
        · left
          rw [createCandidateStoredStatus, if_pos ⟨hne, hmem⟩]
          decide

/-- Witness for claim C6 (amended) at a concrete database and status. -/
theorem candidateStatus_spec_witness :
    (∀ s, (some "archived" : Option String) = some s → s ∉ candidateStatuses) ∧
    updateCandidateStatusRoute { candidates := [], analyses := [] } 1 (some "archived") =
      (400, { candidates := [], analyses := [] }) ∧
    ("archived" ≠ "" ∧ "archived" ∉ candidateStatuses ∧
      createCandidateStoredStatus (some "archived") = "pending") := by
  have h : ∀ s, (some "archived" : Option String) = some s → s ∉ candidateStatuses := by
    intro s hs
    cases hs
    decide
  exact ⟨h, candidateStatus_spec.1 { candidates := [], analyses := [] } 1 (some "archived") h,
    by decide, by decide, candidateStatus_spec.2.1 "archived" (by decide) (by decide)⟩

/-! ### Helper lemmas for the query layer -/

lemma rowLE_total (r s : JoinRow) : RowLE r s ∨ RowLE s r := by
  unfold RowLE rowLE
  rcases hr : scoreKey r with _ | a <;> rcases hs : scoreKey s with _ | b <;> simp
  · exact le_total s.1.createdAt r.1.createdAt
  · rcases lt_trichotomy a b with h | h | h
    · right; left; exact h
    · subst h
      rcases le_total s.1.createdAt r.1.createdAt with hc | hc
      · left; right; exact ⟨rfl, hc⟩
      · right; right; exact ⟨rfl, hc⟩
    · left; left; exact h

lemma rowLE_trans (r s t : JoinRow) : RowLE r s → RowLE s t → RowLE r t := by
  unfold RowLE rowLE
  rcases hr : scoreKey r with _ | a <;> rcases hs : scoreKey s with _ | b <;>
    rcases ht : scoreKey t with _ | c <;> simp
  · omega
  · rintro (h1 | ⟨h1e, h1c⟩) (h2 | ⟨h2e, h2c⟩)
    · left; exact h2.trans h1
    · left; exact h2e ▸ h1
    · left; exact h1e ▸ h2
    · right; exact ⟨h2e.trans h1e, h2c.trans h1c⟩

instance : IsTotal JoinRow RowLE := ⟨rowLE_total⟩

instance : IsTrans JoinRow RowLE := ⟨rowLE_trans⟩

lemma sortedRows_sorted (db : Database) (fi : CandidateFilters) :
    (sortedRows db fi).Sorted RowLE := List.sorted_insertionSort RowLE _

lemma sortedRows_perm (db : Database) (fi : CandidateFilters) :
    List.Perm (sortedRows db fi) (filteredRows db fi) := List.perm_insertionSort RowLE _

lemma length_sortedRows (db : Database) (fi : CandidateFilters) :
    (sortedRows db fi).length = (filteredRows db fi).length :=
  (sortedRows_perm db fi).length_eq

lemma mem_leftJoinRows_analyses {db : Database} {r : JoinRow} {a : AnalysisRow}
    (hr : r ∈ leftJoinRows db) (ha : r.2 = some a) : a ∈ db.analyses := by
  rw [leftJoinRows, List.mem_flatMap] at hr
  obtain ⟨c, _hc, hr⟩ := hr
  rcases hfe : db.analyses.filter (fun x => x.candidateId = c.id) with _ | ⟨m, ms⟩
  · rw [hfe] at hr
    simp only [List.mem_singleton] at hr
    rw [hr] at ha
    cases ha
  · rw [hfe, List.mem_map] at hr
    obtain ⟨x, hx, hrx⟩ := hr
    have hxf : x ∈ db.analyses.filter (fun x => x.candidateId = c.id) := by
      rw [hfe]; exact hx
    have hxa : x ∈ db.analyses := List.mem_of_mem_filter hxf
    rw [← hrx] at ha
    simp only [Option.some.injEq] at ha
    exact ha ▸ hxa

/-- Claim C4: the returned `hasMore` is true exactly when
`offset + limit < total`, where `total` is the count over the same join and
filters ignoring pagination, and a page starting at or beyond `total` yields
an empty candidate list with `hasMore = false`. -/
theorem getCandidates_hasMore_spec (db : Database) (fi : CandidateFilters)
    (_hpage : 1 ≤ fi.page) :
    ((getCandidatesWithAnalysis db fi).hasMore = true ↔
      (fi.page - 1) * fi.limit + fi.limit < (getCandidatesWithAnalysis db fi).total) ∧
    (getCandidatesWithAnalysis db fi).total = (filteredRows db fi).length ∧
    (0 < fi.limit →
      (getCandidatesWithAnalysis db fi).total ≤ (fi.page - 1) * fi.limit →
      (getCandidatesWithAnalysis db fi).candidates = [] ∧
      (getCandidatesWithAnalysis db fi).hasMore = false) := by
  refine ⟨?_, rfl, ?_⟩
  · simp [getCandidatesWithAnalysis]
  · intro _hlim htot
    have htot' : (getCandidatesWithAnalysis db fi).total = (filteredRows db fi).length := rfl
    rw [htot'] at htot
    constructor
    · have hlen : (sortedRows db fi).length ≤ (fi.page - 1) * fi.limit := by
        rw [length_sortedRows]; exact htot
      show ((((sortedRows db fi).drop ((fi.page - 1) * fi.limit)).take fi.limit).map
        transformRow) = []
      rw [List.drop_eq_nil_of_le hlen, List.take_nil, List.map_nil]
    · show decide ((fi.page - 1) * fi.limit + fi.limit < (filteredRows db fi).length) = false
      simp only [decide_eq_false_iff_not, not_lt]
      omega

/-- Witness database for claim C4: one candidate with one analysis row. -/
def c4db : Database where
  candidates := [⟨1, some 1, "Alice", none, none, some "pending", 5⟩]
  analyses := [⟨1, 1, 1, 80, true, 6⟩]

/-- Witness filters for claim C4: page 2 of size 5 over a single-row result. -/
def c4filters : CandidateFilters := { page := 2, limit := 5 }

/-- Witness for claim C4: requesting a page past the single-row result yields
an empty list and `hasMore = false`. -/
theorem getCandidates_hasMore_spec_witness :
    (1 ≤ c4filters.page ∧ 0 < c4filters.limit ∧
      (getCandidatesWithAnalysis c4db c4filters).total ≤
        (c4filters.page - 1) * c4filters.limit) ∧
    ((getCandidatesWithAnalysis c4db c4filters).hasMore = true ↔
      (c4filters.page - 1) * c4filters.limit + c4filters.limit <
        (getCandidatesWithAnalysis c4db c4filters).total) ∧
    (getCandidatesWithAnalysis c4db c4filters).candidates = [] ∧
    (getCandidatesWithAnalysis c4db c4filters).hasMore = false :=
  ⟨⟨by decide, by decide, by decide⟩,
    (getCandidates_hasMore_spec c4db c4filters (by decide)).1,
    (getCandidates_hasMore_spec c4db c4filters (by decide)).2.2 (by decide) (by decide)⟩

/-- The ordering asserted by the specification for the candidate listing:
match score descending with `NULL` scores last, ties by creation time
descending. -/
def specNullsLastLE (r s : JoinRow) : Bool :=
  match scoreKey r, scoreKey s with
  | none, none => decide (s.1.createdAt ≤ r.1.createdAt)
  | none, some _ => false
  | some _, none => true
  | some a, some b => decide (b < a) || (decide (b = a) && decide (s.1.createdAt ≤ r.1.createdAt))

/-- Counterexample database for claim C5: candidate 1 has an analysis with
score 90, candidate 2 has none. -/
def c5db : Database where
  candidates :=
    [⟨1, some 1, "Alice", none, none, some "pending", 5⟩,
     ⟨2, some 1, "Bob", none, none, some "pending", 5⟩]
  analyses := [⟨1, 1, 1, 90, true, 6⟩]

/-- Unfiltered first page of ten used with `c5db`. -/
def c5filters : CandidateFilters := { page := 1, limit := 10 }

/-- Counterexample to claim C5: the listing places the candidate without any
analysis (a `NULL` persisted score) before the candidate scored 90 — Postgres
`ORDER BY match_score DESC` sorts `NULL`s first — so candidates with absent
scores are not placed last. -/
theorem candidatesSorted_counterexample :
    ((getCandidatesWithAnalysis c5db c5filters).candidates.map fun r =>
      (r.1.id, r.2.map (·.matchScore))) = [(2, none), (1, some 90)] ∧
    ¬ (getCandidatesWithAnalysis c5db c5filters).candidates.Pairwise
        (fun r s => specNullsLastLE r s = true) := by
  constructor
  · decide
  · decide

/-- Claim C5 (amended): in every candidate listing result the candidates are
ordered descending by persisted match score with `NULL`/absent scores placed
first (the Postgres default for `DESC`), ties broken by descending candidate
creation time; stated for databases whose analysis ids are positive (the
serial primary key invariant). -/
theorem candidatesSorted_spec (db : Database) (fi : CandidateFilters)
    (hids : ∀ a ∈ db.analyses, 0 < a.id) :
    (getCandidatesWithAnalysis db fi).candidates.Pairwise RowLE := by
  have hsub : List.Sublist (pageRows db fi) (sortedRows db fi) :=
    (List.take_sublist _ _).trans (List.drop_sublist _ _)
  have hsorted : (pageRows db fi).Pairwise RowLE :=
    (sortedRows_sorted db fi).sublist hsub
  have hid : ∀ r ∈ pageRows db fi, transformRow r = r := by
    intro r hr
    have hr1 : r ∈ sortedRows db fi := hsub.subset hr
    have hr2 : r ∈ filteredRows db fi := (sortedRows_perm db fi).subset hr1
    have hr3 : r ∈ leftJoinRows db := List.mem_of_mem_filter hr2
    rcases h2 : r.2 with _ | a
    · rw [transformRow, h2]
      exact Prod.ext rfl h2.symm
    · have ha : a ∈ db.analyses := mem_leftJoinRows_analyses hr3 h2
      have hne : a.id ≠ 0 := Nat.pos_iff_ne_zero.mp (hids a ha)
      rw [transformRow, h2]
      show (r.1, if a.id ≠ 0 then some a else none) = r
      rw [if_pos hne]
      exact Prod.ext rfl h2.symm
  show ((pageRows db fi).map transformRow).Pairwise RowLE
  have hmapid : (pageRows db fi).map transformRow = pageRows db fi := by
    calc (pageRows db fi).map transformRow = (pageRows db fi).map id :=
          List.map_congr_left (by intro r hr; rw [hid r hr]; rfl)
    _ = pageRows db fi := List.map_id _
  rw [hmapid]
  exact hsorted

/-- Witness for claim C5 (amended) on a concrete database. -/
theorem candidatesSorted_spec_witness :
    (∀ a ∈ c5db.analyses, 0 < a.id) ∧
    (getCandidatesWithAnalysis c5db c5filters).candidates.Pairwise RowLE :=
  ⟨by decide, candidatesSorted_spec c5db c5filters (by decide)⟩

/-- Claim C10: with no score filter active, a candidate without any analysis
row still passes the left join and the filters, appears on the page (here:
page 1 with everything fitting), and is returned with an absent analysis;
presence of the analysis in the output is decided by the joined row carrying
an analysis with a non-null (positive) id. -/
theorem candidateWithoutAnalysis_listed (db : Database) (fi : CandidateFilters)
    (c : CandidateRow)
    (_hmin : fi.minScore = none) (_hmax : fi.maxScore = none)
    (hc : c ∈ db.candidates)
    (hnoanal : ∀ a ∈ db.analyses, a.candidateId ≠ c.id)
    (hpass : rowPassesFilters fi (c, none) = true) :
    (c, (none : Option AnalysisRow)) ∈ filteredRows db fi ∧
    (transformRow (c, none)).2 = none ∧
    (fi.page = 1 → (filteredRows db fi).length ≤ fi.limit →
      (c, (none : Option AnalysisRow)) ∈ (getCandidatesWithAnalysis db fi).candidates) ∧
    (∀ (c' : CandidateRow) (a : AnalysisRow), a.id ≠ 0 →
      (transformRow (c', some a)).2 = some a) := by
  have hjoin : (c, (none : Option AnalysisRow)) ∈ leftJoinRows db := by
    rw [leftJoinRows, List.mem_flatMap]
    refine ⟨c, hc, ?_⟩
    have hfe : db.analyses.filter (fun a => a.candidateId = c.id) = [] := by
      rw [List.filter_eq_nil_iff]
      intro a ha
      simpa using hnoanal a ha
    rw [hfe]
    exact List.mem_singleton.mpr rfl
  have hmem : (c, (none : Option AnalysisRow)) ∈ filteredRows db fi :=
    List.mem_filter.mpr ⟨hjoin, hpass⟩
  refine ⟨hmem, rfl, ?_, ?_⟩
  · intro hp1 hlen
    have hmem1 : (c, (none : Option AnalysisRow)) ∈ sortedRows db fi :=
      (sortedRows_perm db fi).mem_iff.mpr hmem
    have hpage : pageRows db fi = sortedRows db fi := by
      rw [pageRows, hp1]
      simp only [Nat.sub_self, Nat.zero_mul, List.drop_zero]
      exact List.take_of_length_le (by rw [length_sortedRows]; exact hlen)
    show (c, (none : Option AnalysisRow)) ∈ (pageRows db fi).map transformRow
    rw [hpage]
    exact List.mem_map.mpr ⟨(c, none), hmem1, rfl⟩
  · intro c' a hid
    show (if a.id ≠ 0 then some a else none) = some a
    exact if_pos hid

/-- Witness database for claim C10: candidate 2 has no analysis row. -/
def c10db : Database where
  candidates :=
    [⟨1, some 1, "Alice", none, none, some "pending", 5⟩,
     ⟨2, some 1, "Bob", none, none, some "pending", 7⟩]
  analyses := [⟨1, 1, 1, 75, false, 6⟩]

/-- The analysis-free candidate row of `c10db`. -/
def c10cand : CandidateRow := ⟨2, some 1, "Bob", none, none, some "pending", 7⟩

/-- Unfiltered first page of ten used with `c10db`. -/
def c10filters : CandidateFilters := { page := 1, limit := 10 }

/-- Witness for claim C10 at a concrete database. -/
theorem candidateWithoutAnalysis_listed_witness :
    (c10filters.minScore = none ∧ c10filters.maxScore = none ∧
      c10cand ∈ c10db.candidates ∧
      (∀ a ∈ c10db.analyses, a.candidateId ≠ c10cand.id) ∧
      rowPassesFilters c10filters (c10cand, none) = true ∧
      c10filters.page = 1 ∧ (filteredRows c10db c10filters).length ≤ c10filters.limit) ∧
    (c10cand, (none : Option AnalysisRow)) ∈
      (getCandidatesWithAnalysis c10db c10filters).candidates :=
  ⟨⟨rfl, rfl, by decide, by decide, by decide, rfl, by decide⟩,
    (candidateWithoutAnalysis_listed c10db c10filters c10cand rfl rfl (by decide) (by decide)
      (by decide)).2.2.1 rfl (by decide)⟩

/-- Concrete structured candidate input used by the witness for claim C8. -/
def c8cand : CandidateInfo :=
  ⟨"Ada Lovelace", "Analytical engineer", ["Mathematics", "Programming"],
    [⟨"Analyst", "Babbage Works", "Wrote the first program"⟩],
    [⟨"Tutored studies", "London"⟩]⟩

/-- Witness for claim C8 at a concrete candidate. -/
theorem candidateTextForEmbedding_spec_witness :
    (c8cand = c8cand) ∧
    candidateTextForEmbedding c8cand = candidateTextForEmbedding c8cand ∧
    candidateTextForEmbedding c8cand =
      c8cand.name ++ " " ++ c8cand.summary ++ " " ++ jsJoin " " c8cand.skills ++ " " ++
      jsJoin " " (c8cand.experience.map fun exp =>
        exp.title ++ " at " ++ exp.company ++ ": " ++ exp.description) ++ " " ++
      jsJoin " " (c8cand.education.map fun edu =>
        edu.degree ++ " from " ++ edu.institution) :=
  ⟨rfl, candidateTextForEmbedding_spec.2 c8cand c8cand rfl,
    candidateTextForEmbedding_spec.1 c8cand⟩

end CvMatch
